import Mathlib

/-!
Shallow embedding of `generate_aidev_csvs.py`, the single source file of the
repository: a batch pipeline that projects columns of four tabular inputs,
sanitizes one free-text column, and derives a security flag by joining the
PR table with the task-type classification table and scanning text for a
fixed keyword vocabulary.

Modelling conventions:
* a pandas cell that may be missing (`NaN` / `pd.isna`) is an `Option`;
* a data frame is a column-oriented association list `(name, column)`;
* Python `str.lower` is modelled character-wise by `Char.toLower`
  (ASCII case folding; every keyword of the vocabulary is ASCII);
* a fallible pandas operation (column selection by name) returns `Except`.
-/

/-! ## Text Sanitizer (`clean_diff`, source lines 47-62) -/

/-- Characters matched by the regex class `[\r\n\t]` in `clean_diff`. -/
def rnt (c : Char) : Bool := c == '\r' || c == '\n' || c == '\t'

/-- Characters matched by the regex class `[\x00-\x1F\x7F-\x9F]` in
`clean_diff`: the C0 control range, DEL, and the C1 control range. -/
def isCtrl (c : Char) : Bool :=
  c.toNat ≤ 31 || (127 ≤ c.toNat && c.toNat ≤ 159)

/-- Models `re.sub(r'[\r\n\t]+', ' ', s)`: every maximal run of
carriage-return, line-feed or tab characters becomes a single space.
The boolean state records whether the scanner is inside a run whose
replacement space has already been emitted. -/
def replRNT : Bool → List Char → List Char
  | _, [] => []
  | b, c :: cs =>
    if rnt c then
      if b then replRNT true cs else ' ' :: replRNT true cs
    else c :: replRNT false cs

/-- Models `re.sub(r'[\x00-\x1F\x7F-\x9F]', '', s)`: remove the remaining
non-printable control characters entirely. -/
def stripCtrl (l : List Char) : List Char := l.filter fun c => !isCtrl c

/-- Models `re.sub(r' {2,}', ' ', s)`: collapse every run of two or more
spaces into a single space (a lone space is left unchanged, so the result
is exactly "runs of spaces become one space"). -/
def collapseSp : Bool → List Char → List Char
  | _, [] => []
  | b, c :: cs =>
    if c == ' ' then
      if b then collapseSp true cs else ' ' :: collapseSp true cs
    else c :: collapseSp false cs

/-- Characters stripped by Python `str.strip()` with no argument: the
characters for which `str.isspace()` is true. -/
def pyWS (c : Char) : Bool :=
  let n := c.toNat
  n == 32 || (9 ≤ n && n ≤ 13) || (28 ≤ n && n ≤ 31) || n == 133 ||
  n == 160 || n == 5760 || (8192 ≤ n && n ≤ 8202) || n == 8232 ||
  n == 8233 || n == 8239 || n == 8287 || n == 12288

/-- Models Python `s.strip()`: drop whitespace from both ends. -/
def pyStrip (l : List Char) : List Char :=
  ((l.dropWhile pyWS).reverse.dropWhile pyWS).reverse

/-- The whole character-level pipeline of `clean_diff` on a present value. -/
def cleanChars (l : List Char) : List Char :=
  pyStrip (collapseSp false (stripCtrl (replRNT false l)))

/-- Embedding of `clean_diff` (source lines 47-62).  `none` models an input
for which `pd.isna(text)` holds; the function is total by construction,
mirroring that the Python function raises no exception. -/
def clean_diff : Option String → String
  | none => ""
  | some s => ⟨cleanChars s.data⟩

/-! ## Security Classifier (source lines 142-165) -/

/-- Character-wise ASCII lower casing, modelling Python `str.lower`. -/
def lowerChars (l : List Char) : List Char := l.map Char.toLower

/-- Lower-case a whole string. -/
def lowerStr (s : String) : String := ⟨lowerChars s.data⟩

/-- Executable test that `n` is a character-wise leading segment of `h`. -/
def pfx : List Char → List Char → Bool
  | [], _ => true
  | _ :: _, [] => false
  | a :: as, b :: bs => if a = b then pfx as bs else false

/-- Executable model of the Python substring test `n in h`. -/
def containsSub (n : List Char) : List Char → Bool
  | [] => pfx n []
  | c :: t => pfx n (c :: t) || containsSub n t

/-- Specification-side statement that `n` occurs contiguously inside `h`. -/
def IsSub (n h : List Char) : Prop := ∃ p r, h = p ++ n ++ r

/-- The `security_keywords` list of `produce_task5`, verbatim and in source
order (source lines 142-149). -/
def security_keywords : List String :=
  ["race","racy","buffer","overflow","stack","integer","signedness","underflow",
   "improper","unauthenticated","gain access","permission","cross site","css",
   "xss","denial service","dos","crash","deadlock","injection",
   "request forgery","csrf","xsrf","forged","security","vulnerability",
   "vulnerable","exploit","attack","bypass","backdoor","threat","expose",
   "breach","violate","fatal","blacklist","overrun","insecure"]

/-- Models `keywords = [k.lower() for k in security_keywords]` (line 150). -/
def keywords : List (List Char) := security_keywords.map fun k => lowerChars k.data

/-- Models the scanning loop of `has_security_flag`:
`for kw in keywords: if kw in text: return 1` and finally `return 0`. -/
def scanKeywords : List (List Char) → List Char → Nat
  | [], _ => 0
  | kw :: rest, text => if containsSub kw text then 1 else scanKeywords rest text

/-- Models `"" if pd.isna(v) else str(v).lower()` for the title and body
cells read by `has_security_flag` (source lines 158-159). -/
def lowerOrEmpty : Option String → String
  | none => ""
  | some s => lowerStr s

/-- Embedding of `has_security_flag` (source lines 157-165): build the text
`f"{title} {body}"` from the lower-cased-or-empty title and body and run
the keyword scan, returning the integer 1 or 0. -/
def has_security_flag (title body : Option String) : Nat :=
  scanKeywords keywords (lowerOrEmpty title ++ " " ++ lowerOrEmpty body).data

/-- The Security Classifier of the specification as a predicate over one
text blob: lower-case the text (the case folding done by the caller in
`has_security_flag`) and run the same keyword scan. -/
def is_security_related (T : String) : Bool :=
  scanKeywords keywords (lowerChars T.data) == 1

/-! ## Join-and-Classify step (`produce_task5`, source lines 131-178) -/

/-- Row of the Task-1 (PR) table, with the renamed headers it carries when
`produce_task5` reads it back.  `K` is the type of the join key `ID`. -/
structure PRRow (K : Type) where
  ID : K
  TITLE : Option String
  AGENTNAME : Option String
  BODYSTRING : Option String
  REPOID : Option String
  REPOURL : Option String
deriving DecidableEq

/-- Row of the Task-3 (task-type classification) table. -/
structure ClsRow (K : Type) where
  PRID : K
  PRTITLE : Option String
  PRREASON : Option String
  PRTYPE : Option String
  CONFIDENCE : Option String
deriving DecidableEq

/-- Row of the merged frame produced by
`df1.merge(df3, left_on="ID", right_on="PRID", how="left")` (line 155).
Columns of an unmatched left row hold `NaN`, modelled by `none`. -/
structure MRow (K : Type) where
  ID : K
  TITLE : Option String
  AGENTNAME : Option String
  BODYSTRING : Option String
  REPOID : Option String
  REPOURL : Option String
  PRID : Option K
  PRTITLE : Option String
  PRREASON : Option String
  PRTYPE : Option String
  CONFIDENCE : Option String
deriving DecidableEq

/-- Merged row for a left row matched with a classification row. -/
def matchedRow {K : Type} (p : PRRow K) (c : ClsRow K) : MRow K :=
  { ID := p.ID, TITLE := p.TITLE, AGENTNAME := p.AGENTNAME,
    BODYSTRING := p.BODYSTRING, REPOID := p.REPOID, REPOURL := p.REPOURL,
    PRID := some c.PRID, PRTITLE := c.PRTITLE, PRREASON := c.PRREASON,
    PRTYPE := c.PRTYPE, CONFIDENCE := c.CONFIDENCE }

/-- Merged row for a left row with no matching classification row: the
right-hand columns are `NaN`. -/
def unmatchedRow {K : Type} (p : PRRow K) : MRow K :=
  { ID := p.ID, TITLE := p.TITLE, AGENTNAME := p.AGENTNAME,
    BODYSTRING := p.BODYSTRING, REPOID := p.REPOID, REPOURL := p.REPOURL,
    PRID := none, PRTITLE := none, PRREASON := none,
    PRTYPE := none, CONFIDENCE := none }

/-- Classification rows whose `PRID` equals the `ID` of the PR row `p`. -/
def clsMatches {K : Type} [DecidableEq K] (cls : List (ClsRow K)) (p : PRRow K) :
    List (ClsRow K) :=
  cls.filter fun c => decide (c.PRID = p.ID)

/-- Output block of the left join for one left row: one unmatched row when
no classification row matches, otherwise one merged row per match. -/
def prBlock {K : Type} [DecidableEq K] (cls : List (ClsRow K)) (p : PRRow K) :
    List (MRow K) :=
  match clsMatches cls p with
  | [] => [unmatchedRow p]
  | ms => ms.map (matchedRow p)

/-- Embedding of the left merge of `produce_task5` (source line 155). -/
def mergeT5 {K : Type} [DecidableEq K] :
    List (PRRow K) → List (ClsRow K) → List (MRow K)
  | [], _ => []
  | p :: ps, cls => prBlock cls p ++ mergeT5 ps cls

/-- Row of the Task-5 output table (source lines 169-175). -/
structure CombinedRow (K : Type) where
  ID : K
  AGENT : Option String
  TYPE : Option String
  CONFIDENCE : Option String
  SECURITY : Nat
deriving DecidableEq

/-- Embedding of `combine`: the merged frame with the derived `SECURITY`
column, projected to the five output columns (source lines 155-175). -/
def combine {K : Type} [DecidableEq K] (pr : List (PRRow K))
    (cls : List (ClsRow K)) : List (CombinedRow K) :=
  (mergeT5 pr cls).map fun m =>
    { ID := m.ID, AGENT := m.AGENTNAME, TYPE := m.PRTYPE,
      CONFIDENCE := m.CONFIDENCE,
      SECURITY := has_security_flag m.TITLE m.BODYSTRING }

/-! ## Column Projector (`produce_task1` .. `produce_task4`) -/

/-- Error raised when a declared output column has no source column, the
`KeyError` of `out[[...]]` on a missing name. -/
inductive SchemaError where
  | missingColumn (name : String)
deriving DecidableEq

/-- Column-oriented data frame: an association list of named columns. -/
abbrev DF (α : Type) : Type := List (String × List α)

/-- New name of the column `n` under the rename map `m`, as in
`df.rename(columns=...)`: renamed when listed, otherwise unchanged. -/
def applyRen (m : List (String × String)) (n : String) : String :=
  match m.lookup n with
  | some n2 => n2
  | none => n

/-- Models `df.rename(columns=m)`. -/
def renameDF {α : Type} (m : List (String × String)) (df : DF α) : DF α :=
  df.map fun nc => (applyRen m nc.1, nc.2)

/-- First column named `n`, when present. -/
def lookupCol {α : Type} (n : String) : DF α → Option (List α)
  | [] => none
  | c :: t => if c.1 = n then some c.2 else lookupCol n t

/-- Models `df[[n₁, …, nₖ]]`: select the named columns in the declared
order, failing on the first name with no source column. -/
def selectCols {α : Type} (order : List String) (df : DF α) :
    Except SchemaError (DF α) :=
  match order with
  | [] => Except.ok []
  | n :: rest =>
    match lookupCol n df with
    | none => Except.error (SchemaError.missingColumn n)
    | some col =>
      match selectCols rest df with
      | Except.error e => Except.error e
      | Except.ok out => Except.ok ((n, col) :: out)

/-- Whether an `Except` value is a success. -/
def exceptIsOk {ε α : Type} : Except ε α → Bool
  | Except.ok _ => true
  | Except.error _ => false

/-- The Column Projector of the specification: rename, then select in the
declared output order. -/
def project {α : Type} (df : DF α) (m : List (String × String))
    (order : List String) : Except SchemaError (DF α) :=
  selectCols order (renameDF m df)

/-- Models the column assignment `df[n] = df[n].apply(...)`: replace the
content of every column named `n`. -/
def replaceCol {α : Type} (n : String) (newCol : List α) : DF α → DF α
  | [] => []
  | c :: t => (if c.1 = n then (c.1, newCol) else c) :: replaceCol n newCol t

/-- Rename map of `produce_task1` (source lines 67-74). -/
def task1Renames : List (String × String) :=
  [("title","TITLE"),("id","ID"),("agent","AGENTNAME"),("body","BODYSTRING"),
   ("repo_id","REPOID"),("repo_url","REPOURL")]

/-- Output order of `produce_task1` (source line 75). -/
def task1Order : List String :=
  ["TITLE","ID","AGENTNAME","BODYSTRING","REPOID","REPOURL"]

/-- Rename map of `produce_task2` (source lines 83-88). -/
def task2Renames : List (String × String) :=
  [("id","REPOID"),("language","LANG"),("stars","STARS"),("url","REPOURL")]

/-- Output order of `produce_task2` (source line 89). -/
def task2Order : List String := ["REPOID","LANG","STARS","REPOURL"]

/-- Rename map of `produce_task3` (source lines 97-103). -/
def task3Renames : List (String × String) :=
  [("id","PRID"),("title","PRTITLE"),("reason","PRREASON"),("type","PRTYPE"),
   ("confidence","CONFIDENCE")]

/-- Output order of `produce_task3` (source line 104). -/
def task3Order : List String := ["PRID","PRTITLE","PRREASON","PRTYPE","CONFIDENCE"]

/-- Rename map of `produce_task4` (source lines 112-122). -/
def task4Renames : List (String × String) :=
  [("pr_id","PRID"),("sha","PRSHA"),("message","PRCOMMITMESSAGE"),
   ("filename","PRFILE"),("status","PRSTATUS"),("additions","PRADDS"),
   ("deletions","PRDELSS"),("changes","PRCHANGECOUNT"),("patch","PRDIFF")]

/-- Output order of `produce_task4` (source lines 125-126). -/
def task4Order : List String :=
  ["PRID","PRSHA","PRCOMMITMESSAGE","PRFILE","PRSTATUS",
   "PRADDS","PRDELSS","PRCHANGECOUNT","PRDIFF"]

/-- Table transformation of `produce_task1` (source lines 64-78): rename
and project; writing the CSV is out of scope. -/
def produce_task1_df (df : DF (Option String)) : Except SchemaError (DF (Option String)) :=
  project df task1Renames task1Order

/-- Table transformation of `produce_task2` (source lines 80-92). -/
def produce_task2_df (df : DF (Option String)) : Except SchemaError (DF (Option String)) :=
  project df task2Renames task2Order

/-- Table transformation of `produce_task3` (source lines 94-107). -/
def produce_task3_df (df : DF (Option String)) : Except SchemaError (DF (Option String)) :=
  project df task3Renames task3Order

/-- Table transformation of `produce_task4` (source lines 109-129): rename,
route the `PRDIFF` column through `clean_diff` (line 124, a `KeyError`
when absent), then project. -/
def produce_task4_df (df : DF (Option String)) : Except SchemaError (DF (Option String)) :=
  match lookupCol "PRDIFF" (renameDF task4Renames df) with
  | none => Except.error (SchemaError.missingColumn "PRDIFF")
  | some col =>
    selectCols task4Order
      (replaceCol "PRDIFF" (col.map fun v => some (clean_diff v)) (renameDF task4Renames df))

/-! ## Lemmas: substring scan -/

theorem pfx_iff : ∀ (n h : List Char), pfx n h = true ↔ ∃ r, h = n ++ r
  | [], h => by simp [pfx]
  | _ :: _, [] => by simp [pfx]
  | a :: as, b :: bs => by
    simp only [pfx]
    by_cases hab : a = b
    · subst hab
      rw [if_pos rfl, pfx_iff as bs]
      constructor
      · rintro ⟨r, rfl⟩
        exact ⟨r, rfl⟩
      · rintro ⟨r, hr⟩
        rw [List.cons_append] at hr
        injection hr with h1 h2
        exact ⟨r, h2⟩
    · simp only [if_neg hab]
      constructor
      · intro hfalse
        simp at hfalse
      · rintro ⟨r, hr⟩
        rw [List.cons_append] at hr
        injection hr with h1 h2
        exact absurd h1.symm hab

theorem containsSub_iff : ∀ (n h : List Char), containsSub n h = true ↔ IsSub n h
  | n, [] => by
    rw [show containsSub n [] = pfx n [] from rfl, pfx_iff]
    constructor
    · rintro ⟨r, hr⟩
      exact ⟨[], r, by simpa using hr⟩
    · rintro ⟨p, r, hpr⟩
      have h2 := hpr.symm
      simp only [List.append_eq_nil] at h2
      exact ⟨[], by simp [h2.1.2]⟩
  | n, c :: t => by
    rw [show containsSub n (c :: t) = (pfx n (c :: t) || containsSub n t) from rfl]
    rw [Bool.or_eq_true, pfx_iff, containsSub_iff n t]
    constructor
    · rintro (⟨r, hr⟩ | ⟨p, r, hpr⟩)
      · exact ⟨[], r, by simpa using hr⟩
      · exact ⟨c :: p, r, by simp [hpr]⟩
    · rintro ⟨p, r, hpr⟩
      cases p with
      | nil => exact Or.inl ⟨r, by simpa using hpr⟩
      | cons c2 p2 =>
        rw [List.cons_append, List.cons_append] at hpr
        injection hpr with h1 h2
        exact Or.inr ⟨p2, r, h2⟩

theorem scanKeywords_eq_one_iff : ∀ (ks : List (List Char)) (t : List Char),
    scanKeywords ks t = 1 ↔ ∃ kw ∈ ks, containsSub kw t = true
  | [], t => by simp [scanKeywords]
  | kw :: rest, t => by
    by_cases h : containsSub kw t = true
    · simp only [scanKeywords, if_pos h]
      constructor
      · intro _
        exact ⟨kw, List.mem_cons_self kw rest, h⟩
      · intro _
        trivial
    · simp only [scanKeywords, if_neg h]
      rw [scanKeywords_eq_one_iff rest t]
      constructor
      · rintro ⟨k, hk, hc⟩
        exact ⟨k, List.mem_cons_of_mem kw hk, hc⟩
      · rintro ⟨k, hk, hc⟩
        rcases List.mem_cons.mp hk with rfl | hk2
        · exact absurd hc h
        · exact ⟨k, hk2, hc⟩

theorem scanKeywords_zero_or_one : ∀ (ks : List (List Char)) (t : List Char),
    scanKeywords ks t = 0 ∨ scanKeywords ks t = 1
  | [], _ => Or.inl rfl
  | kw :: rest, t => by
    by_cases h : containsSub kw t = true
    · right
      simp [scanKeywords, h]
    · rcases scanKeywords_zero_or_one rest t with h0 | h1
      · left
        simp [scanKeywords, h, h0]
      · right
        simp [scanKeywords, h, h1]

/-- C2: for every text `T`, the security classifier returns `true` iff some
member of the fixed keyword vocabulary, case-folded, is a literal
contiguous substring of `T` case-folded; in particular it returns `false`
for the empty text (and hence for keyword-free text, by the iff). -/
theorem C2_security_classifier_iff :
    (∀ T : String, is_security_related T = true ↔
      ∃ kw ∈ security_keywords, IsSub (lowerChars kw.data) (lowerChars T.data)) ∧
    is_security_related "" = false := by
  constructor
  · intro T
    rw [is_security_related, beq_iff_eq, scanKeywords_eq_one_iff]
    constructor
    · rintro ⟨k, hk, hc⟩
      rw [keywords] at hk
      rcases List.mem_map.mp hk with ⟨kw, hkw, rfl⟩
      exact ⟨kw, hkw, (containsSub_iff _ _).mp hc⟩
    · rintro ⟨kw, hkw, hsub⟩
      refine ⟨lowerChars kw.data, ?_, (containsSub_iff _ _).mpr hsub⟩
      rw [keywords]
      exact List.mem_map.mpr ⟨kw, hkw, rfl⟩
  · decide

/-! ## Lemmas: case folding -/

theorem toNat_ofNat_valid {m : Nat} (h : m.isValidChar) : (Char.ofNat m).toNat = m := by
  unfold Char.ofNat
  rw [dif_pos h]
  rfl

theorem toLower_eq (c : Char) :
    Char.toLower c =
      if c.toNat ≥ 65 ∧ c.toNat ≤ 90 then Char.ofNat (c.toNat + 32) else c := rfl

theorem toLower_idem (c : Char) : (Char.toLower c).toLower = Char.toLower c := by
  rw [toLower_eq c]
  by_cases h : c.toNat ≥ 65 ∧ c.toNat ≤ 90
  · rw [if_pos h, toLower_eq]
    have hv : (c.toNat + 32).isValidChar := Or.inl (by omega)
    rw [toNat_ofNat_valid hv]
    rw [if_neg (by omega)]
  · rw [if_neg h, toLower_eq, if_neg h]

theorem lowerChars_idem (l : List Char) : lowerChars (lowerChars l) = lowerChars l := by
  induction l with
  | nil => rfl
  | cons c t ih =>
    show Char.toLower (Char.toLower c) :: lowerChars (lowerChars t)
        = Char.toLower c :: lowerChars t
    rw [toLower_idem, ih]

/-! ## Lemmas: the security flag of a merged row -/

theorem has_security_flag_eq (title body : Option String) :
    has_security_flag title body =
      if is_security_related (lowerOrEmpty title ++ " " ++ lowerOrEmpty body)
      then 1 else 0 := by
  have hdata : ∀ x : Option String, lowerChars (lowerOrEmpty x).data = (lowerOrEmpty x).data := by
    intro x
    cases x with
    | none => rfl
    | some s => exact lowerChars_idem s.data
  have htext : lowerChars (lowerOrEmpty title ++ " " ++ lowerOrEmpty body).data
      = (lowerOrEmpty title ++ " " ++ lowerOrEmpty body).data := by
    simp only [String.data_append, lowerChars, List.map_append]
    rw [show List.map Char.toLower (" " : String).data = (" " : String).data from rfl]
    rw [← lowerChars, ← lowerChars, hdata title, hdata body]
  rw [is_security_related, htext, has_security_flag]
  rcases scanKeywords_zero_or_one keywords
      (lowerOrEmpty title ++ " " ++ lowerOrEmpty body).data with h0 | h1
  · rw [h0]
    simp
  · rw [h1]
    simp

theorem combine_secs {K : Type} [DecidableEq K] (pr : List (PRRow K)) (cls : List (ClsRow K)) :
    (combine pr cls).map (fun r => r.SECURITY) =
      (mergeT5 pr cls).map (fun m => has_security_flag m.TITLE m.BODYSTRING) := by
  rw [combine, List.map_map]
  rfl

/-- C3: for each joined row of the combined table, the security flag equals
`is_security_related` applied to the lower-cased title, a single space and
the lower-cased body concatenated, a missing title or body contributing the
empty string; scenario B: title "Fix XSS vulnerability" with null body
yields classifier text "fix xss vulnerability " and flag 1. -/
theorem C3_security_flag_formula :
    (∀ (K : Type) (_inst : DecidableEq K) (pr : List (PRRow K)) (cls : List (ClsRow K)),
      (combine pr cls).map (fun r => r.SECURITY) =
        (mergeT5 pr cls).map (fun m =>
          if is_security_related (lowerOrEmpty m.TITLE ++ " " ++ lowerOrEmpty m.BODYSTRING)
          then 1 else 0)) ∧
    lowerOrEmpty (some "Fix XSS vulnerability") ++ " " ++ lowerOrEmpty none
      = "fix xss vulnerability " ∧
    has_security_flag (some "Fix XSS vulnerability") none = 1 := by
  refine ⟨?_, by decide, by decide⟩
  intro K _inst pr cls
  rw [combine_secs]
  exact List.map_congr_left fun m _ => has_security_flag_eq m.TITLE m.BODYSTRING

/-- C9: every value of the SECURITY column of the combined table is the
integer 1 or the integer 0. -/
theorem C9_security_flag_binary (K : Type) [DecidableEq K]
    (pr : List (PRRow K)) (cls : List (ClsRow K)) :
    ∀ r ∈ combine pr cls, r.SECURITY = 1 ∨ r.SECURITY = 0 := by
  intro r hr
  rw [combine] at hr
  rcases List.mem_map.mp hr with ⟨m, _, rfl⟩
  rcases scanKeywords_zero_or_one keywords
      (lowerOrEmpty m.TITLE ++ " " ++ lowerOrEmpty m.BODYSTRING).data with h0 | h1
  · right
    exact h0
  · left
    exact h1

/-- Concrete PR row used by the join examples. -/
def exPR1 : PRRow Nat :=
  { ID := 1, TITLE := none, AGENTNAME := some "agent", BODYSTRING := none,
    REPOID := none, REPOURL := none }

/-- Concrete one-row PR table. -/
def exPRTable : List (PRRow Nat) := [exPR1]

/-- Two classification rows sharing pr-id 1 (fan-out input). -/
def exClsFanOut : List (ClsRow Nat) :=
  [{ PRID := 1, PRTITLE := none, PRREASON := none, PRTYPE := some "bug",
     CONFIDENCE := some "0.9" },
   { PRID := 1, PRTITLE := none, PRREASON := none, PRTYPE := some "feature",
     CONFIDENCE := some "0.8" }]

/-- A single classification row matching pr-id 1. -/
def exClsOne : List (ClsRow Nat) :=
  [{ PRID := 1, PRTITLE := none, PRREASON := none, PRTYPE := some "bug",
     CONFIDENCE := some "0.9" }]

/-- Witness for C9 at a concrete table. -/
theorem C9_security_flag_binary_witness :
    ({ ID := 1, AGENT := some "agent", TYPE := some "bug", CONFIDENCE := some "0.9",
       SECURITY := 0 } : CombinedRow Nat).SECURITY = 1 ∨
    ({ ID := 1, AGENT := some "agent", TYPE := some "bug", CONFIDENCE := some "0.9",
       SECURITY := 0 } : CombinedRow Nat).SECURITY = 0 :=
  C9_security_flag_binary Nat exPRTable exClsOne _ (by decide)

/-! ## Lemmas: cardinality of the left join -/

theorem prBlock_length {K : Type} [DecidableEq K] (cls : List (ClsRow K)) (p : PRRow K) :
    (prBlock cls p).length =
      if (clsMatches cls p).length = 0 then 1 else (clsMatches cls p).length := by
  rw [prBlock]
  cases h : clsMatches cls p with
  | nil => simp
  | cons c ms => simp

/-- C1 amended: when every PR row has at most one matching classification
row (the expected zero-or-one relationship), the combined table has exactly
as many rows as the PR table, and in particular a PR row with no match
still appears exactly once; with duplicated keys the left join fans out. -/
theorem C1_join_preserves_cardinality (K : Type) [DecidableEq K]
    (pr : List (PRRow K)) (cls : List (ClsRow K))
    (h : ∀ p ∈ pr, (clsMatches cls p).length ≤ 1) :
    (combine pr cls).length = pr.length := by
  rw [combine, List.length_map]
  revert h
  induction pr with
  | nil => intro _; rfl
  | cons p ps ih =>
    intro h
    rw [mergeT5, List.length_append, prBlock_length]
    have hp := h p (List.mem_cons_self p ps)
    rw [ih (fun q hq => h q (List.mem_cons_of_mem p hq)), List.length_cons]
    by_cases h0 : (clsMatches cls p).length = 0
    · rw [if_pos h0]
      omega
    · rw [if_neg h0]
      omega

/-- C1 counterexample: with two classification rows sharing the same PR id,
the combined table has 2 rows while the PR table has 1, refuting the
unconditional cardinality claim. -/
theorem C1_counterexample :
    ¬ ((combine exPRTable exClsFanOut).length = exPRTable.length) := by decide

/-- Witness for the amended C1 at a concrete table. -/
theorem C1_join_preserves_cardinality_witness :
    (combine exPRTable exClsOne).length = exPRTable.length :=
  C1_join_preserves_cardinality Nat exPRTable exClsOne (by decide)

/-! ## Lemmas: noninterference of classification fields with the flag -/

theorem map_const_eq_replicate {α β : Type} (l : List α) (f : α → β) (b : β)
    (h : ∀ x, f x = b) : l.map f = List.replicate l.length b := by
  induction l with
  | nil => rfl
  | cons x t ih => simp [List.replicate_succ, h x, ih]

theorem prBlock_secs {K : Type} [DecidableEq K] (cls : List (ClsRow K)) (p : PRRow K) :
    (prBlock cls p).map (fun m => has_security_flag m.TITLE m.BODYSTRING) =
      List.replicate (prBlock cls p).length
        (has_security_flag p.TITLE p.BODYSTRING) := by
  rw [prBlock]
  cases h : clsMatches cls p with
  | nil => rfl
  | cons c ms =>
    rw [List.map_map, List.length_map]
    exact map_const_eq_replicate (c :: ms) _ _ (fun x => rfl)

/-- C10 amended: the security flag of each output row is computed from its
PR row's title and body only, so two classification tables giving every PR
row the same number of matches yield identical SECURITY columns; tables
with different match counts change only the multiplicity of the rows
(left-join fan-out), never the flag value of any row. -/
theorem C10_security_noninterference (K : Type) [DecidableEq K]
    (pr : List (PRRow K)) (cls1 cls2 : List (ClsRow K))
    (h : ∀ p ∈ pr, (clsMatches cls1 p).length = (clsMatches cls2 p).length) :
    (combine pr cls1).map (fun r => r.SECURITY) =
      (combine pr cls2).map (fun r => r.SECURITY) := by
  rw [combine_secs, combine_secs]
  revert h
  induction pr with
  | nil => intro _; rfl
  | cons p ps ih =>
    intro h
    rw [mergeT5, mergeT5, List.map_append, List.map_append]
    rw [prBlock_secs, prBlock_secs, prBlock_length, prBlock_length]
    rw [h p (List.mem_cons_self p ps)]
    rw [ih (fun q hq => h q (List.mem_cons_of_mem p hq))]

/-- Empty classification table. -/
def exClsNone : List (ClsRow Nat) := []

/-- A single matching classification row with different content. -/
def exClsOneAlt : List (ClsRow Nat) :=
  [{ PRID := 1, PRTITLE := none, PRREASON := none, PRTYPE := some "feature",
     CONFIDENCE := none }]

/-- C10 counterexample: combining the same PR table with a fan-out
classification table and with an empty one yields SECURITY columns of
different lengths, so the columns are not identical row for row for
arbitrary pairs of classification tables. -/
theorem C10_counterexample :
    ¬ ((combine exPRTable exClsFanOut).map (fun r => r.SECURITY) =
       (combine exPRTable exClsNone).map (fun r => r.SECURITY)) := by decide

/-- Witness for the amended C10 at concrete tables. -/
theorem C10_security_noninterference_witness :
    (combine exPRTable exClsOne).map (fun r => r.SECURITY) =
      (combine exPRTable exClsOneAlt).map (fun r => r.SECURITY) :=
  C10_security_noninterference Nat exPRTable exClsOne exClsOneAlt (by decide)

/-! ## Lemmas: column projection -/

theorem selectCols_err_iff {α : Type} : ∀ (order : List String) (df : DF α),
    exceptIsOk (selectCols order df) = false ↔ ∃ n ∈ order, lookupCol n df = none
  | [], df => by simp [selectCols, exceptIsOk]
  | n :: rest, df => by
    cases hl : lookupCol n df with
    | none =>
      simp only [selectCols, hl]
      constructor
      · intro _
        exact ⟨n, List.mem_cons_self n rest, hl⟩
      · intro _
        rfl
    | some col =>
      simp only [selectCols, hl]
      cases hs : selectCols rest df with
      | error e =>
        simp only [exceptIsOk]
        constructor
        · intro _
          have hrest := (selectCols_err_iff rest df).mp (by rw [hs]; rfl)
          rcases hrest with ⟨n2, hn2, hnone⟩
          exact ⟨n2, List.mem_cons_of_mem n hn2, hnone⟩
        · intro _
          trivial
      | ok out =>
        simp only [exceptIsOk]
        constructor
        · intro hfalse
          simp at hfalse
        · rintro ⟨n2, hn2, hnone⟩
          rcases List.mem_cons.mp hn2 with rfl | h2
          · rw [hl] at hnone
            cases hnone
          · have hbad := (selectCols_err_iff rest df).mpr ⟨n2, h2, hnone⟩
            rw [hs] at hbad
            simp [exceptIsOk] at hbad

/-- C5: the Column Projector fails with a SchemaError exactly when some
name of the declared output order has no source column in the renamed
input table (fail fast, never emitting nulls for a structurally absent
column); scenario D: projecting with order [ID, MISSING] over a table
holding only an id column fails. -/
theorem C5_projection_schema_error :
    (∀ (α : Type) (df : DF α) (m : List (String × String)) (order : List String),
      exceptIsOk (project df m order) = false ↔
        ∃ n ∈ order, lookupCol n (renameDF m df) = none) ∧
    exceptIsOk (project ([("id", [some "5"])] : DF (Option String))
      [("id", "ID")] ["ID", "MISSING"]) = false := by
  constructor
  · intro α df m order
    rw [project]
    exact selectCols_err_iff order (renameDF m df)
  · decide

theorem selectCols_lookup {α : Type} : ∀ (order : List String) (df out : DF α),
    selectCols order df = Except.ok out →
      ∀ n ∈ order, lookupCol n out = lookupCol n df
  | [], df, out => by
    intro h n hn
    exact absurd hn (List.not_mem_nil n)
  | n0 :: rest, df, out => by
    intro h n hn
    cases hl : lookupCol n0 df with
    | none =>
      rw [selectCols, hl] at h
      exact Except.noConfusion h
    | some col =>
      rw [selectCols, hl] at h
      cases hs : selectCols rest df with
      | error e =>
        rw [hs] at h
        exact Except.noConfusion h
      | ok out2 =>
        rw [hs] at h
        injection h with hout
        by_cases hn0 : n0 = n
        · rw [← hout, lookupCol]
          dsimp only
          rw [if_pos hn0, ← hn0, hl]
        · rw [← hout, lookupCol]
          dsimp only
          rw [if_neg hn0]
          rcases List.mem_cons.mp hn with rfl | hmem
          · exact absurd rfl hn0
          · exact selectCols_lookup rest df out2 hs n hmem

theorem replaceCol_lookup_ne {α : Type} (n nq : String) (newCol : List α)
    (hne : nq ≠ n) : ∀ df : DF α,
      lookupCol nq (replaceCol n newCol df) = lookupCol nq df
  | [] => rfl
  | c :: t => by
    rw [replaceCol]
    by_cases hc : c.1 = n
    · rw [if_pos hc, lookupCol, lookupCol]
      dsimp only
      have hq : ¬ (c.1 = nq) := by
        rw [hc]
        exact fun hh => hne hh.symm
      rw [if_neg hq, if_neg hq]
      exact replaceCol_lookup_ne n nq newCol hne t
    · rw [if_neg hc, lookupCol, lookupCol]
      by_cases hq : c.1 = nq
      · rw [if_pos hq, if_pos hq]
      · rw [if_neg hq, if_neg hq]
        exact replaceCol_lookup_ne n nq newCol hne t

theorem replaceCol_lookup_self {α : Type} (n : String) (newCol : List α) :
    ∀ (df : DF α) (col : List α), lookupCol n df = some col →
      lookupCol n (replaceCol n newCol df) = some newCol
  | [], col => by
    intro h
    exact Option.noConfusion h
  | c :: t, col => by
    intro h
    rw [replaceCol]
    by_cases hc : c.1 = n
    · rw [if_pos hc, lookupCol]
      dsimp only
      rw [if_pos hc]
    · rw [if_neg hc, lookupCol]
      rw [lookupCol, if_neg hc] at h
      rw [if_neg hc]
      exact replaceCol_lookup_self n newCol t col h

/-- C6: only the PRDIFF (patch) column of the Commit Detail projection is
routed through the sanitizer before projection; every other selected
column of task 4, and every selected column of tasks 1-3 (PR titles and
bodies included), passes through unchanged from the renamed source table. -/
theorem C6_only_diff_sanitized :
    (∀ (df out : DF (Option String)), produce_task4_df df = Except.ok out →
      (∀ col, lookupCol "PRDIFF" (renameDF task4Renames df) = some col →
        lookupCol "PRDIFF" out = some (col.map fun v => some (clean_diff v))) ∧
      (∀ n ∈ task4Order, n ≠ "PRDIFF" →
        lookupCol n out = lookupCol n (renameDF task4Renames df))) ∧
    (∀ (df out : DF (Option String)), produce_task1_df df = Except.ok out →
      ∀ n ∈ task1Order, lookupCol n out = lookupCol n (renameDF task1Renames df)) ∧
    (∀ (df out : DF (Option String)), produce_task2_df df = Except.ok out →
      ∀ n ∈ task2Order, lookupCol n out = lookupCol n (renameDF task2Renames df)) ∧
    (∀ (df out : DF (Option String)), produce_task3_df df = Except.ok out →
      ∀ n ∈ task3Order, lookupCol n out = lookupCol n (renameDF task3Renames df)) := by
  refine ⟨?_, ?_, ?_, ?_⟩
  · intro df out h
    rw [produce_task4_df] at h
    cases hl : lookupCol "PRDIFF" (renameDF task4Renames df) with
    | none =>
      rw [hl] at h
      exact Except.noConfusion h
    | some col0 =>
      rw [hl] at h
      have h2 : selectCols task4Order
          (replaceCol "PRDIFF" (col0.map fun v => some (clean_diff v))
            (renameDF task4Renames df)) = Except.ok out := h
      constructor
      · intro col hcol
        injection hcol with he
        subst he
        have hsel := selectCols_lookup task4Order _ out h2 "PRDIFF" (by decide)
        rw [hsel]
        exact replaceCol_lookup_self "PRDIFF" _ _ col0 hl
      · intro n hn hne
        have hsel := selectCols_lookup task4Order _ out h2 n hn
        rw [hsel]
        exact replaceCol_lookup_ne "PRDIFF" n _ hne _
  · intro df out h n hn
    exact selectCols_lookup task1Order (renameDF task1Renames df) out h n hn
  · intro df out h n hn
    exact selectCols_lookup task2Order (renameDF task2Renames df) out h n hn
  · intro df out h n hn
    exact selectCols_lookup task3Order (renameDF task3Renames df) out h n hn

/-- Concrete commit-detail source table for exercising task 4. -/
def exDF4 : DF (Option String) :=
  [("pr_id", [some "7"]), ("sha", [some "s"]), ("message", [some "m"]),
   ("filename", [some "f"]), ("status", [some "ok"]), ("additions", [some "1"]),
   ("deletions", [some "0"]), ("changes", [some "1"]), ("patch", [some "a\nb"])]

/-- Task-4 output for `exDF4`: the patch column sanitized, all else as-is. -/
def exOut4 : DF (Option String) :=
  [("PRID", [some "7"]), ("PRSHA", [some "s"]), ("PRCOMMITMESSAGE", [some "m"]),
   ("PRFILE", [some "f"]), ("PRSTATUS", [some "ok"]), ("PRADDS", [some "1"]),
   ("PRDELSS", [some "0"]), ("PRCHANGECOUNT", [some "1"]), ("PRDIFF", [some "a b"])]

/-- Concrete PR source table for exercising task 1. -/
def exDF1 : DF (Option String) :=
  [("title", [some "T"]), ("id", [some "1"]), ("agent", [some "cc"]),
   ("body", [none]), ("repo_id", [some "9"]), ("repo_url", [some "u"])]

/-- Task-1 output for `exDF1`. -/
def exOut1 : DF (Option String) :=
  [("TITLE", [some "T"]), ("ID", [some "1"]), ("AGENTNAME", [some "cc"]),
   ("BODYSTRING", [none]), ("REPOID", [some "9"]), ("REPOURL", [some "u"])]

/-- Witness for C6 at concrete tables. -/
theorem C6_only_diff_sanitized_witness :
    lookupCol "PRDIFF" exOut4
        = some ([some "a\nb"].map fun v => some (clean_diff v)) ∧
    lookupCol "PRSHA" exOut4 = lookupCol "PRSHA" (renameDF task4Renames exDF4) ∧
    lookupCol "BODYSTRING" exOut1
        = lookupCol "BODYSTRING" (renameDF task1Renames exDF1) := by
  have h := C6_only_diff_sanitized
  refine ⟨?_, ?_, ?_⟩
  · exact (h.1 exDF4 exOut4 (by rfl)).1 [some "a\nb"] (by rfl)
  · exact (h.1 exDF4 exOut4 (by rfl)).2 "PRSHA" (by decide) (by decide)
  · exact h.2.1 exDF1 exOut1 (by rfl) "BODYSTRING" (by decide)

/-! ## Lemmas: characters surviving the sanitizer -/

theorem mem_replRNT : ∀ (b : Bool) (l : List Char) (c : Char),
    c ∈ replRNT b l → c = ' ' ∨ (c ∈ l ∧ rnt c = false)
  | b, [], c => by
    intro h
    exact absurd h (List.not_mem_nil c)
  | b, x :: xs, c => by
    intro h
    rw [replRNT] at h
    by_cases hx : rnt x = true
    · rw [if_pos hx] at h
      cases b with
      | true =>
        rcases mem_replRNT true xs c h with h1 | ⟨h2, h3⟩
        · exact Or.inl h1
        · exact Or.inr ⟨List.mem_cons_of_mem x h2, h3⟩
      | false =>
        rcases List.mem_cons.mp h with rfl | h2
        · exact Or.inl rfl
        · rcases mem_replRNT true xs c h2 with h1 | ⟨h3, h4⟩
          · exact Or.inl h1
          · exact Or.inr ⟨List.mem_cons_of_mem x h3, h4⟩
    · rw [if_neg hx] at h
      rcases List.mem_cons.mp h with rfl | h2
      · exact Or.inr ⟨List.mem_cons_self c xs, Bool.not_eq_true (rnt c) ▸ hx⟩
      · rcases mem_replRNT false xs c h2 with h1 | ⟨h3, h4⟩
        · exact Or.inl h1
        · exact Or.inr ⟨List.mem_cons_of_mem x h3, h4⟩

theorem mem_collapseSp : ∀ (b : Bool) (l : List Char) (c : Char),
    c ∈ collapseSp b l → c ∈ l
  | b, [], c => by
    intro h
    exact absurd h (List.not_mem_nil c)
  | b, x :: xs, c => by
    intro h
    rw [collapseSp] at h
    by_cases hx : (x == ' ') = true
    · rw [if_pos hx] at h
      have hx2 : x = ' ' := by simpa using hx
      cases b with
      | true => exact List.mem_cons_of_mem x (mem_collapseSp true xs c h)
      | false =>
        rcases List.mem_cons.mp h with rfl | h2
        · rw [hx2]
          exact List.mem_cons_self ' ' xs
        · exact List.mem_cons_of_mem x (mem_collapseSp true xs c h2)
    · rw [if_neg hx] at h
      rcases List.mem_cons.mp h with rfl | h2
      · exact List.mem_cons_self c xs
      · exact List.mem_cons_of_mem x (mem_collapseSp false xs c h2)

theorem mem_pyStrip (l : List Char) (c : Char) (h : c ∈ pyStrip l) : c ∈ l := by
  rw [pyStrip, List.mem_reverse] at h
  have h1 : c ∈ (l.dropWhile pyWS).reverse := (List.dropWhile_suffix pyWS).subset h
  rw [List.mem_reverse] at h1
  exact (List.dropWhile_suffix pyWS).subset h1

theorem rnt_isCtrl (c : Char) (h : rnt c = true) : isCtrl c = true := by
  rw [rnt] at h
  simp only [Bool.or_eq_true, beq_iff_eq] at h
  rcases h with (rfl | rfl) | rfl <;> decide

theorem cleanChars_tame (l : List Char) (c : Char) (h : c ∈ cleanChars l) :
    rnt c = false ∧ isCtrl c = false := by
  rw [cleanChars] at h
  have h1 := mem_pyStrip _ _ h
  have h2 := mem_collapseSp false _ c h1
  rcases h2cases : h2 with h2'
  rw [stripCtrl, List.mem_filter] at h2'
  have hctrl : isCtrl c = false := by
    have hb := h2'.2
    rwa [Bool.not_eq_true'] at hb
  refine ⟨?_, hctrl⟩
  cases hr : rnt c
  · rfl
  · rw [rnt_isCtrl c hr] at hctrl
    exact hctrl

/-- C4: sanitizer output never contains a carriage-return, line-feed or tab
character nor any C0 or C1 control character; scenario A:
sanitizing "fix bug\r\n\tline2" yields "fix bug line2". -/
theorem C4_sanitizer_no_control :
    (∀ x : Option String,
      ((clean_diff x).data.all fun c => !(rnt c) && !(isCtrl c)) = true) ∧
    clean_diff (some "fix bug\r\n\tline2") = "fix bug line2" := by
  constructor
  · intro x
    cases x with
    | none => decide
    | some s =>
      rw [List.all_eq_true]
      intro c hc
      have hmem : c ∈ cleanChars s.data := hc
      have htame := cleanChars_tame s.data c hmem
      rw [htame.1, htame.2]
      rfl
  · rfl

/-! ## Lemmas: idempotence of the sanitizer -/

/-- Adjacent-pair relation: not two spaces in a row. -/
def spPair (a b : Char) : Prop := ¬(a = ' ' ∧ b = ' ')

theorem collapseSp_chain : ∀ (l : List Char) (b : Bool),
    List.Chain' spPair (collapseSp b l) ∧
      (b = true → (collapseSp b l).head? ≠ some ' ')
  | [], b => by
    constructor
    · exact List.chain'_nil
    · intro _
      simp [collapseSp]
  | x :: xs, b => by
    by_cases hx : (x == ' ') = true
    · have hx2 : x = ' ' := by simpa using hx
      cases b with
      | true =>
        rw [collapseSp, if_pos hx, if_pos rfl]
        exact collapseSp_chain xs true
      | false =>
        rw [collapseSp, if_pos hx, if_neg (by simp)]
        have ih := collapseSp_chain xs true
        constructor
        · rw [List.chain'_cons']
          constructor
          · intro y hy
            rintro ⟨h1, h2⟩
            rw [Option.mem_def] at hy
            exact ih.2 rfl (h2 ▸ hy)
          · exact ih.1
        · intro hfalse
          exact Bool.noConfusion hfalse
    · have hx2 : x ≠ ' ' := by simpa using hx
      rw [collapseSp, if_neg hx]
      have ih := collapseSp_chain xs false
      constructor
      · rw [List.chain'_cons']
        constructor
        · intro y hy
          rintro ⟨h1, h2⟩
          exact hx2 h1
        · exact ih.1
      · intro _
        simp [hx2]

theorem collapseSp_id : ∀ (l : List Char), List.Chain' spPair l →
    ∀ b : Bool, (b = true → l.head? ≠ some ' ') → collapseSp b l = l
  | [], _, b, _ => rfl
  | x :: xs, h, b, hb => by
    have htail : List.Chain' spPair xs := (List.chain'_cons'.mp h).2
    by_cases hx : (x == ' ') = true
    · have hx2 : x = ' ' := by simpa using hx
      subst hx2
      cases b with
      | true =>
        exfalso
        exact hb rfl rfl
      | false =>
        rw [collapseSp, if_pos hx, if_neg (by simp)]
        have hhead : xs.head? ≠ some ' ' := by
          intro hcon
          have hpair := (List.chain'_cons'.mp h).1 ' ' (Option.mem_def.mpr hcon)
          exact hpair ⟨rfl, rfl⟩
        rw [collapseSp_id xs htail true (fun _ => hhead)]
    · rw [collapseSp, if_neg hx]
      rw [collapseSp_id xs htail false (fun hf => Bool.noConfusion hf)]

theorem chain_pyStrip {R : Char → Char → Prop} (hsym : ∀ a b, R a b → R b a)
    (l : List Char) (h : List.Chain' R l) : List.Chain' R (pyStrip l) := by
  rw [pyStrip]
  have h1 := h.suffix (List.dropWhile_suffix pyWS)
  have h2 : List.Chain' R (l.dropWhile pyWS).reverse := by
    rw [List.chain'_reverse]
    exact h1.imp (fun a b hab => hsym a b hab)
  have h3 := h2.suffix (List.dropWhile_suffix pyWS)
  rw [List.chain'_reverse]
  exact h3.imp (fun a b hab => hsym a b hab)

theorem dropWhile_idem {α : Type} (p : α → Bool) :
    ∀ l : List α, List.dropWhile p (List.dropWhile p l) = List.dropWhile p l
  | [] => rfl
  | x :: xs => by
    cases hx : p x
    · rw [List.dropWhile_cons, if_neg (by simp [hx]), List.dropWhile_cons,
        if_neg (by simp [hx])]
    · rw [List.dropWhile_cons, if_pos (by simp [hx])]
      exact dropWhile_idem p xs

theorem head_dropWhile {α : Type} (p : α → Bool) : ∀ (l : List α) (y : α) (ys : List α),
    List.dropWhile p l = y :: ys → p y = false
  | [], y, ys => by
    intro h
    exact List.noConfusion h
  | x :: xs, y, ys => by
    intro h
    cases hx : p x
    · rw [List.dropWhile_cons, if_neg (by simp [hx])] at h
      injection h with h1 h2
      rw [← h1]
      exact hx
    · rw [List.dropWhile_cons, if_pos (by simp [hx])] at h
      exact head_dropWhile p xs y ys h

theorem dropWhile_eq_self_of_head {α : Type} {p : α → Bool} :
    ∀ l : List α, (∀ y ys, l = y :: ys → p y = false) → List.dropWhile p l = l
  | [], _ => rfl
  | x :: xs, h => by
    rw [List.dropWhile_cons, if_neg (by simp [h x xs rfl])]

theorem pyStrip_idem (l : List Char) : pyStrip (pyStrip l) = pyStrip l := by
  rcases (List.dropWhile_suffix pyWS :
      List.dropWhile pyWS (List.dropWhile pyWS l).reverse
        <:+ (List.dropWhile pyWS l).reverse) with ⟨t, ht⟩
  have ha : List.dropWhile pyWS l
      = (List.dropWhile pyWS (List.dropWhile pyWS l).reverse).reverse ++ t.reverse := by
    have h0 := congrArg List.reverse ht
    rw [List.reverse_append, List.reverse_reverse] at h0
    exact h0.symm
  have h1 : List.dropWhile pyWS (pyStrip l) = pyStrip l := by
    apply dropWhile_eq_self_of_head
    intro y ys hy
    refine head_dropWhile pyWS l y (ys ++ t.reverse) ?_
    rw [show pyStrip l
        = (List.dropWhile pyWS (List.dropWhile pyWS l).reverse).reverse from rfl] at hy
    rw [ha, hy]
    simp
  have h2 : pyStrip (pyStrip l)
      = (List.dropWhile pyWS (pyStrip l).reverse).reverse := by
    rw [show pyStrip (pyStrip l)
        = ((List.dropWhile pyWS (pyStrip l)).reverse.dropWhile pyWS).reverse from rfl]
    rw [h1]
  rw [h2]
  have h3 : (pyStrip l).reverse = List.dropWhile pyWS (List.dropWhile pyWS l).reverse := by
    rw [show pyStrip l
        = (List.dropWhile pyWS (List.dropWhile pyWS l).reverse).reverse from rfl]
    rw [List.reverse_reverse]
  rw [h3, dropWhile_idem]
  rfl

theorem replRNT_id (l : List Char) (h : ∀ c ∈ l, rnt c = false) :
    replRNT false l = l := by
  induction l with
  | nil => rfl
  | cons c cs ih =>
    have hc := h c (List.mem_cons_self c cs)
    rw [replRNT, hc]
    simp only [Bool.false_eq_true, if_false]
    rw [ih (fun d hd => h d (List.mem_cons_of_mem c hd))]

theorem stripCtrl_id (l : List Char) (h : ∀ c ∈ l, isCtrl c = false) :
    stripCtrl l = l := by
  rw [stripCtrl, List.filter_eq_self]
  intro a ha
  rw [h a ha]
  rfl

theorem cleanChars_chain (l : List Char) : List.Chain' spPair (cleanChars l) := by
  rw [cleanChars]
  exact chain_pyStrip (fun a b hab hba => hab ⟨hba.2, hba.1⟩) _
    (collapseSp_chain (stripCtrl (replRNT false l)) false).1

theorem cleanChars_idem (l : List Char) : cleanChars (cleanChars l) = cleanChars l := by
  rw [show cleanChars (cleanChars l)
      = pyStrip (collapseSp false (stripCtrl (replRNT false (cleanChars l)))) from rfl]
  rw [replRNT_id _ (fun c hc => (cleanChars_tame l c hc).1)]
  rw [stripCtrl_id _ (fun c hc => (cleanChars_tame l c hc).2)]
  rw [collapseSp_id _ (cleanChars_chain l) false (fun hf => Bool.noConfusion hf)]
  rw [show cleanChars l
      = pyStrip (collapseSp false (stripCtrl (replRNT false l))) from rfl]
  exact pyStrip_idem _

/-- C7: the sanitizer is idempotent: sanitizing an already-sanitized value
changes nothing. -/
theorem C7_sanitizer_idempotent (x : Option String) :
    clean_diff (some (clean_diff x)) = clean_diff x := by
  cases x with
  | none => rfl
  | some s =>
    show (⟨cleanChars (String.mk (cleanChars s.data)).data⟩ : String)
        = ⟨cleanChars s.data⟩
    rw [show (String.mk (cleanChars s.data)).data = cleanChars s.data from rfl]
    rw [cleanChars_idem]

/-- C8: the sanitizer is a total function (its embedding returns a plain
string, with no error outcome) and maps a missing/null input to the empty
string rather than raising an error. -/
theorem C8_sanitizer_null : clean_diff none = "" := rfl
